import Mathlib

/-!
Verification of the lyric-drop timeline/segment model.

The data model and operations below are a shallow embedding of the
repository's segment utilities and of the timeline store
(`useTimeline`).  Times are modelled as rationals (the source uses
double-precision floats; the algorithms only add, subtract, multiply
and divide, so ℚ reproduces them exactly on rational inputs).  Segment
and section ids are modelled as naturals; the source draws fresh ids
from a UUID generator, which is modelled here by an explicit fresh-id
seed argument on every operation that creates segments.
-/

namespace LyricDrop

/-- Segment kind: a text-bearing Lyric or a silent Spacer. -/
inductive SegmentType where
  | LYRIC
  | SPACER
deriving DecidableEq

/-- A timed segment on the timeline. -/
structure LyricSegment where
  id : Nat
  text : String
  startTime : ℚ
  endTime : ℚ
  type : SegmentType
deriving DecidableEq

/-- A lyric section: a time range that groups segments. -/
structure LyricSection where
  id : Nat
  startTime : ℚ
  endTime : ℚ
deriving DecidableEq

/-! ### Segment timing utilities (from the lyric utils module) -/

/-- Split a character list at newline characters. -/
def splitLinesOnNewline : List Char → List (List Char)
  | [] => [[]]
  | c :: rest =>
    match splitLinesOnNewline rest with
    | [] => [[]]
    | line :: lines =>
      if c = '\n' then [] :: line :: lines else (c :: line) :: lines

/-- Strip whitespace (spaces, tabs, carriage returns, newlines) from both
ends of a character list. -/
def trimChars (cs : List Char) : List Char :=
  ((cs.dropWhile Char.isWhitespace).reverse.dropWhile Char.isWhitespace).reverse

/-- Split raw text on newlines (handling both LF and CRLF, since the
trailing carriage return is trimmed with the rest of the surrounding
whitespace), trim each line, and drop lines that are empty after
trimming. -/
def parseLyricsToLines (text : String) : List String :=
  (((splitLinesOnNewline text.data).map (fun cs => List.asString (trimChars cs))).filter
    (fun line => line.length > 0))

/-- Build a Spacer segment with empty text. -/
def createSpacerSegment (freshId : Nat) (startTime endTime : ℚ) : LyricSegment :=
  { id := freshId, text := "", startTime := startTime, endTime := endTime,
    type := SegmentType.SPACER }

/-- Update a segment's timing: the new start is clamped against 0 and the
new end against the (raw) requested start. -/
def updateSegmentTiming (segment : LyricSegment) (startTime endTime : ℚ) : LyricSegment :=
  { segment with startTime := max 0 startTime, endTime := max startTime endTime }

/-- Replace a segment's text. -/
def updateSegmentText (segment : LyricSegment) (text : String) : LyricSegment :=
  { segment with text := text }

/-- Ordering used by the store: ascending start time. -/
def segLE (a b : LyricSegment) : Prop := a.startTime ≤ b.startTime

instance : DecidableRel segLE := fun a b =>
  inferInstanceAs (Decidable (a.startTime ≤ b.startTime))

/-- Stable sort of segments by start time (the source uses a stable
comparator sort). -/
def sortSegmentsByTime (segments : List LyricSegment) : List LyricSegment :=
  List.insertionSort segLE segments

/-- The predicate used by the active-segment query. -/
def activePredicate (time : ℚ) (seg : LyricSegment) : Bool :=
  decide (seg.type = SegmentType.LYRIC ∧ seg.startTime ≤ time ∧ time < seg.endTime)

/-- Find the first Lyric segment whose interval contains the given time. -/
def findActiveSegment (segments : List LyricSegment) (time : ℚ) : Option LyricSegment :=
  segments.find? (activePredicate time)

/-- Split a segment at a time: the first half keeps id and text and ends at
the split time; the second half is a fresh empty segment of the same kind. -/
def splitSegmentAtTime (segment : LyricSegment) (splitTime : ℚ) (freshId : Nat) :
    LyricSegment × LyricSegment :=
  ({ segment with endTime := splitTime },
   { id := freshId, text := "", startTime := splitTime, endTime := segment.endTime,
     type := segment.type })

/-- Merge two segments: first id, concatenated trimmed text, union span. -/
def mergeSegments (a b : LyricSegment) : LyricSegment :=
  { id := a.id,
    text := (a.text ++ " " ++ b.text).trim,
    startTime := min a.startTime b.startTime,
    endTime := max a.endTime b.endTime,
    type := a.type }

/-! ### The timeline store state -/

/-- The part of the timeline store state the claims are about. -/
structure TimelineModel where
  segments : List LyricSegment
  lyricSections : List LyricSection
deriving DecidableEq

/-- Partial update record for a segment (undefined fields are `none`). -/
structure SegmentUpdates where
  startTime? : Option ℚ := none
  endTime? : Option ℚ := none
  text? : Option String := none

/-- Partial update record for a section. -/
structure SectionUpdates where
  startTime? : Option ℚ := none
  endTime? : Option ℚ := none

/-- Containment of a segment's interval in a section's interval. -/
def isInSection (sec : LyricSection) (seg : LyricSegment) : Bool :=
  decide (sec.startTime ≤ seg.startTime ∧ seg.endTime ≤ sec.endTime)

/-- The first section fully containing the segment, if any. -/
def containingSectionOf (sections : List LyricSection) (seg : LyricSegment) :
    Option LyricSection :=
  sections.find? (fun sec => isInSection sec seg)

/-! ### updateSegment (the cascading-shift mutation) -/

/-- The end-time shift requested by an update, clamped (when the target is
in a section and the shift is an extension) so that the last segment of the
section does not get pushed past the section's end. -/
def clampedEndShift (sections : List LyricSection) (prev : List LyricSegment)
    (segmentIndex : Nat) (currentSegment : LyricSegment) (requestedEnd : ℚ) : ℚ :=
  let endTimeShift := requestedEnd - currentSegment.endTime
  match containingSectionOf sections currentSegment with
  | none => endTimeShift
  | some containingSection =>
    if 0 < endTimeShift then
      let segmentsAfter := (prev.enum.filter (fun p =>
        decide (segmentIndex < p.1) && isInSection containingSection p.2)).map Prod.snd
      let lastSegmentInSection := segmentsAfter.getLast?.getD currentSegment
      let maxShift := containingSection.endTime - lastSegmentInSection.endTime
      if maxShift < endTimeShift then max 0 maxShift else endTimeShift
    else endTimeShift

/-- Per-element step of `updateSegment`'s full update pass: the target gets
its new timing and text; a later segment in the target's containing section
is shifted by the end-time delta unless its shifted start would be negative;
everything else is untouched. -/
def updateSegmentStep (cs? : Option LyricSection) (id : Nat)
    (u : SegmentUpdates) (segmentIndex : Nat)
    (newStartTime newEndTime endTimeShift : ℚ)
    (index : Nat) (seg : LyricSegment) : LyricSegment :=
  if seg.id = id then
    let s1 := if u.startTime?.isSome || u.endTime?.isSome then
        updateSegmentTiming seg newStartTime newEndTime
      else seg
    match u.text? with
    | some t => updateSegmentText s1 t
    | none => s1
  else if segmentIndex < index ∧ endTimeShift ≠ 0 then
    match cs? with
    | some containingSection =>
      if isInSection containingSection seg then
        if 0 ≤ seg.startTime + endTimeShift then
          updateSegmentTiming seg (seg.startTime + endTimeShift) (seg.endTime + endTimeShift)
        else seg
      else seg
    | none => seg
  else seg

/-- Update a segment by id, cascading the end-time delta to later segments
of the same containing section. -/
def updateSegment (sections : List LyricSection) (prev : List LyricSegment)
    (id : Nat) (u : SegmentUpdates) : List LyricSegment :=
  match prev.findIdx? (fun seg => decide (seg.id = id)) with
  | none => prev
  | some segmentIndex =>
    match prev[segmentIndex]? with
    | none => prev
    | some currentSegment =>
      let cs? := containingSectionOf sections currentSegment
      let newStartTime := u.startTime?.getD currentSegment.startTime
      let endTimeShift :=
        clampedEndShift sections prev segmentIndex currentSegment
          (u.endTime?.getD currentSegment.endTime)
      let newEndTime := currentSegment.endTime + endTimeShift
      if endTimeShift = 0 ∧ u.startTime? = none ∧ u.text?.isSome then
        prev.map (fun seg =>
          if seg.id = id then updateSegmentText seg (u.text?.getD seg.text) else seg)
      else
        sortSegmentsByTime (prev.enum.map (fun p =>
          updateSegmentStep cs? id u segmentIndex newStartTime newEndTime endTimeShift p.1 p.2))

/-! ### Bulk import and append -/

/-- Import lyrics: replace everything overlapping the target range by
equal-width Lyric segments.  Fresh ids are `fresh`, `fresh + 1`, .... -/
def importLyrics (prev : List LyricSegment) (text : String) (videoDuration : ℚ)
    (startTime : ℚ) (endTime? : Option ℚ) (fresh : Nat) : List LyricSegment :=
  let lines := parseLyricsToLines text
  if lines.isEmpty then prev
  else
    let effectiveEndTime := endTime?.getD videoDuration
    let sectionDuration := effectiveEndTime - startTime
    let segmentDuration := sectionDuration / (lines.length : ℚ)
    let newSegments := lines.enum.map (fun p =>
      { id := fresh + p.1, text := p.2,
        startTime := startTime + (p.1 : ℚ) * segmentDuration,
        endTime := startTime + ((p.1 : ℚ) + 1) * segmentDuration,
        type := SegmentType.LYRIC })
    let segmentsOutsideSection := prev.filter (fun seg =>
      decide (seg.endTime ≤ startTime ∨ effectiveEndTime ≤ seg.startTime))
    sortSegmentsByTime (segmentsOutsideSection ++ newSegments)

/-- The segments named by `ids`, in their current list order. -/
def existingSegmentsOf (prev : List LyricSegment) (ids : List Nat) : List LyricSegment :=
  prev.filter (fun seg => decide (seg.id ∈ ids))

/-- Texts of the named existing segments followed by the new lines. -/
def allTextsOf (prev : List LyricSegment) (ids : List Nat)
    (newLines : List String) : List String :=
  (existingSegmentsOf prev ids).map (fun seg => seg.text) ++ newLines

/-- Append lyrics to a section: redistribute the combined text list evenly
over the section range, reusing existing ids and kinds positionally. -/
def appendLyrics (prev : List LyricSegment) (text : String)
    (sectionStart sectionEnd : ℚ) (existingSegmentIds : List Nat)
    (fresh : Nat) : List LyricSegment :=
  let newLines := parseLyricsToLines text
  if newLines.isEmpty then prev
  else
    let existingSegments := existingSegmentsOf prev existingSegmentIds
    let otherSegments := prev.filter (fun seg => decide (seg.id ∉ existingSegmentIds))
    let allTexts := allTextsOf prev existingSegmentIds newLines
    let sectionDuration := sectionEnd - sectionStart
    let segmentDuration := sectionDuration / (allTexts.length : ℚ)
    let redistributedSegments := allTexts.enum.map (fun p =>
      { id := ((existingSegments[p.1]?.map (fun e => e.id)).getD
           (fresh + (p.1 - existingSegments.length))),
        text := p.2,
        startTime := sectionStart + (p.1 : ℚ) * segmentDuration,
        endTime := sectionStart + ((p.1 : ℚ) + 1) * segmentDuration,
        type := (existingSegments[p.1]?.map (fun e => e.type)).getD SegmentType.LYRIC })
    sortSegmentsByTime (otherSegments ++ redistributedSegments)

/-! ### Spacer insertion -/

/-- The insertion point for a spacer: snap to the start or end of the
segment under the cursor (depending on which half the cursor is in),
or use the requested time verbatim when no segment is under it. -/
def insertionPointOf (segments : List LyricSegment) (atTime : ℚ) : ℚ :=
  match segments.find? (fun seg => decide (seg.startTime ≤ atTime ∧ atTime < seg.endTime)) with
  | none => atTime
  | some segmentAtCursor =>
    if atTime < (segmentAtCursor.startTime + segmentAtCursor.endTime) / 2 then
      segmentAtCursor.startTime
    else
      segmentAtCursor.endTime

/-- Insert a spacer: shift segments at or after the insertion point,
add the spacer, extend sections containing the point and shift sections
after it. -/
def insertSpacer (st : TimelineModel) (atTime duration : ℚ) (fresh : Nat) :
    TimelineModel :=
  let insertionPoint := insertionPointOf st.segments atTime
  let updated := st.segments.map (fun seg =>
    if insertionPoint ≤ seg.startTime then
      updateSegmentTiming seg (seg.startTime + duration) (seg.endTime + duration)
    else seg)
  let spacer := createSpacerSegment fresh insertionPoint (insertionPoint + duration)
  let newSections := st.lyricSections.map (fun sec =>
    if sec.startTime ≤ insertionPoint ∧ insertionPoint ≤ sec.endTime then
      { sec with endTime := sec.endTime + duration }
    else if insertionPoint < sec.startTime then
      { sec with startTime := sec.startTime + duration,
                 endTime := sec.endTime + duration }
    else sec)
  { segments := sortSegmentsByTime (updated ++ [spacer]),
    lyricSections := newSections }

/-! ### Section removal -/

/-- Remove a section and every segment overlapping its range (a kept
segment ends at or before the section start, or starts at or after the
section end). -/
def removeLyricSection (st : TimelineModel) (id : Nat) : TimelineModel :=
  match st.lyricSections.find? (fun s => decide (s.id = id)) with
  | none => { st with lyricSections := st.lyricSections.filter (fun s => decide (s.id ≠ id)) }
  | some sectionToRemove =>
    { segments := st.segments.filter (fun seg =>
        decide (seg.endTime ≤ sectionToRemove.startTime ∨
                sectionToRemove.endTime ≤ seg.startTime)),
      lyricSections := st.lyricSections.filter (fun s => decide (s.id ≠ id)) }

/-! ### Section resize with proportional redistribution -/

/-- Strict interval overlap of a segment with a section's range. -/
def overlapsSection (sec : LyricSection) (seg : LyricSegment) : Bool :=
  decide (seg.startTime < sec.endTime ∧ sec.startTime < seg.endTime)

/-- The segments overlapping a section's current range. -/
def segmentsInSectionOf (sec : LyricSection) (segs : List LyricSegment) :
    List LyricSegment :=
  segs.filter (overlapsSection sec)

/-- Minimum start time of a nonempty segment group (fold of `min`). -/
def occupiedFirstStart (s0 : LyricSegment) (rest : List LyricSegment) : ℚ :=
  (rest.map (fun s => s.startTime)).foldl min s0.startTime

/-- Maximum end time of a nonempty segment group (fold of `max`). -/
def occupiedLastEnd (s0 : LyricSegment) (rest : List LyricSegment) : ℚ :=
  (rest.map (fun s => s.endTime)).foldl max s0.endTime

/-- Proportionally remap one segment from the occupied span into the new
section bounds. -/
def remapSegment (newStartTime newSectionDuration actualFirstStart
    actualSegmentsDuration : ℚ) (seg : LyricSegment) : LyricSegment :=
  { seg with
    startTime := newStartTime +
      (seg.startTime - actualFirstStart) / actualSegmentsDuration * newSectionDuration,
    endTime := newStartTime +
      (seg.endTime - actualFirstStart) / actualSegmentsDuration * newSectionDuration }

/-- Redistribute the segments overlapping the current section bounds into
the new bounds; no-op when no segment overlaps or the occupied span has
zero length. -/
def remapSegments (currentSection : LyricSection) (newStartTime newEndTime : ℚ)
    (prevSegments : List LyricSegment) : List LyricSegment :=
  match segmentsInSectionOf currentSection prevSegments with
  | [] => prevSegments
  | s0 :: rest =>
    let actualFirstStart := occupiedFirstStart s0 rest
    let actualSegmentsDuration := occupiedLastEnd s0 rest - actualFirstStart
    if actualSegmentsDuration = 0 then prevSegments
    else
      let idsInSection := (s0 :: rest).map (fun s => s.id)
      prevSegments.map (fun seg =>
        if decide (seg.id ∈ idsInSection) then
          remapSegment newStartTime (newEndTime - newStartTime)
            actualFirstStart actualSegmentsDuration seg
        else seg)

/-- Apply a partial section update. -/
def applySectionUpdates (sec : LyricSection) (u : SectionUpdates) : LyricSection :=
  { sec with startTime := u.startTime?.getD sec.startTime,
             endTime := u.endTime?.getD sec.endTime }

/-- Ordering used for sections: ascending start time. -/
def sectionLE (a b : LyricSection) : Prop := a.startTime ≤ b.startTime

instance : DecidableRel sectionLE := fun a b =>
  inferInstanceAs (Decidable (a.startTime ≤ b.startTime))

/-- Resize a section: redistribute the overlapping segments into the new
bounds, then commit the new bounds and re-sort the sections. -/
def updateLyricSection (st : TimelineModel) (id : Nat) (u : SectionUpdates) :
    TimelineModel :=
  match st.lyricSections.find? (fun s => decide (s.id = id)) with
  | none => st
  | some currentSection =>
    let newStartTime := u.startTime?.getD currentSection.startTime
    let newEndTime := u.endTime?.getD currentSection.endTime
    { segments := remapSegments currentSection newStartTime newEndTime st.segments,
      lyricSections := List.insertionSort sectionLE
        (st.lyricSections.map (fun sec =>
          if sec.id = id then applySectionUpdates sec u else sec)) }

/-! ### Concrete states used by witnesses and counterexamples -/

/-- Demo Spacer covering the query time, to check it is never active. -/
def demoSpacerC6 : LyricSegment :=
  { id := 1, text := "", startTime := 0, endTime := 10, type := SegmentType.SPACER }

/-- Demo Lyric segment covering the query time. -/
def demoLyricC6 : LyricSegment :=
  { id := 2, text := "x", startTime := 5, endTime := 15, type := SegmentType.LYRIC }

/-- Demo segment for the timing-clamp claim. -/
def demoSegC7 : LyricSegment :=
  { id := 3, text := "y", startTime := 1, endTime := 2, type := SegmentType.LYRIC }

/-- Demo segment for the split/merge round-trip claim. -/
def demoSegC8 : LyricSegment :=
  { id := 4, text := "z", startTime := 10, endTime := 20, type := SegmentType.LYRIC }

/-- Demo segment partially overlapping the section to be removed. -/
def demoSegC3 : LyricSegment :=
  { id := 9, text := "p", startTime := 25, endTime := 35, type := SegmentType.LYRIC }

/-- Demo segment outside the section to be removed. -/
def demoKeepC3 : LyricSegment :=
  { id := 10, text := "q", startTime := 40, endTime := 50, type := SegmentType.LYRIC }

/-- Demo section to be removed. -/
def demoSecC3 : LyricSection := { id := 7, startTime := 0, endTime := 30 }

/-- Demo state for section removal. -/
def demoStC3 : TimelineModel := { segments := [demoSegC3, demoKeepC3], lyricSections := [demoSecC3] }

/-- Demo zero-duration segment for the degenerate-resize claim. -/
def demoZeroSegC9 : LyricSegment :=
  { id := 5, text := "r", startTime := 10, endTime := 10, type := SegmentType.LYRIC }

/-- Demo section for the degenerate-resize claim. -/
def demoSecC9 : LyricSection := { id := 1, startTime := 0, endTime := 30 }

/-- Demo state for the degenerate-resize claim. -/
def demoStC9 : TimelineModel := { segments := [demoZeroSegC9], lyricSections := [demoSecC9] }

/-- Demo contained segment for the resize-remap claim. -/
def demoA1 : LyricSegment :=
  { id := 10, text := "a", startTime := 0, endTime := 10, type := SegmentType.LYRIC }

/-- Demo partially overlapping segment for the resize-remap claim. -/
def demoB1 : LyricSegment :=
  { id := 11, text := "b", startTime := 25, endTime := 35, type := SegmentType.LYRIC }

/-- Demo section for the resize-remap counterexample. -/
def demoSecC1 : LyricSection := { id := 1, startTime := 0, endTime := 30 }

/-- Demo state for the resize-remap counterexample. -/
def demoStC1 : TimelineModel := { segments := [demoA1, demoB1], lyricSections := [demoSecC1] }

/-- First of three equal demo segments for the resize witness. -/
def demoW1 : LyricSegment :=
  { id := 21, text := "w1", startTime := 0, endTime := 10, type := SegmentType.LYRIC }

/-- Second of three equal demo segments for the resize witness. -/
def demoW2 : LyricSegment :=
  { id := 22, text := "w2", startTime := 10, endTime := 20, type := SegmentType.LYRIC }

/-- Third of three equal demo segments for the resize witness. -/
def demoW3 : LyricSegment :=
  { id := 23, text := "w3", startTime := 20, endTime := 30, type := SegmentType.LYRIC }

/-- Demo section for the resize witness. -/
def demoSecC1w : LyricSection := { id := 2, startTime := 0, endTime := 30 }

/-- Demo state for the resize witness. -/
def demoStC1w : TimelineModel :=
  { segments := [demoW1, demoW2, demoW3], lyricSections := [demoSecC1w] }

/-- Demo target segment (in a section) for the cascade witness. -/
def demoTC2 : LyricSegment :=
  { id := 1, text := "t", startTime := 0, endTime := 10, type := SegmentType.LYRIC }

/-- Demo later segment (same section) for the cascade witness. -/
def demoUC2 : LyricSegment :=
  { id := 2, text := "u", startTime := 10, endTime := 20, type := SegmentType.LYRIC }

/-- Demo section for the cascade witness. -/
def demoSecC2 : LyricSection := { id := 6, startTime := 0, endTime := 40 }

/-- Demo orphan target for the cascade counterexample. -/
def demoTA2 : LyricSegment :=
  { id := 1, text := "a", startTime := 0, endTime := 10, type := SegmentType.LYRIC }

/-- Demo later orphan for the cascade counterexample. -/
def demoTB2 : LyricSegment :=
  { id := 3, text := "b", startTime := 20, endTime := 30, type := SegmentType.LYRIC }

/-- Demo pre-existing segment partially overlapping the import range. -/
def demoOldC4 : LyricSegment :=
  { id := 2, text := "old", startTime := 25, endTime := 35, type := SegmentType.LYRIC }

/-- Demo pre-existing segment outside the import range. -/
def demoOutC4 : LyricSegment :=
  { id := 3, text := "out", startTime := 40, endTime := 50, type := SegmentType.LYRIC }

/-- Demo segment under the cursor for the spacer-insertion witness. -/
def demoB5 : LyricSegment :=
  { id := 2, text := "b", startTime := 10, endTime := 20, type := SegmentType.LYRIC }

/-- Demo section for the spacer-insertion witness. -/
def demoSecC5 : LyricSection := { id := 4, startTime := 0, endTime := 30 }

/-- Demo state for the spacer-insertion witness. -/
def demoStC5 : TimelineModel := { segments := [demoB5], lyricSections := [demoSecC5] }

/-- Demo named Lyric segment for the append claim. -/
def demoLyricC10 : LyricSegment :=
  { id := 1, text := "hello", startTime := 0, endTime := 5, type := SegmentType.LYRIC }

/-- Demo named Spacer segment for the append claim. -/
def demoSpacerC10 : LyricSegment :=
  { id := 2, text := "", startTime := 5, endTime := 10, type := SegmentType.SPACER }

/-! ### Helper lemmas -/

/-- A fold of `min` is bounded by its initial accumulator. -/
theorem foldl_min_le_init (l : List ℚ) (a : ℚ) : l.foldl min a ≤ a := by
  induction l generalizing a with
  | nil => exact le_refl a
  | cons b t ih => exact le_trans (ih (min a b)) (min_le_left a b)

/-- A fold of `min` is bounded by every list element. -/
theorem foldl_min_le_mem (l : List ℚ) (a x : ℚ) (hx : x ∈ l) : l.foldl min a ≤ x := by
  induction l generalizing a with
  | nil => cases hx
  | cons b t ih =>
    rcases List.mem_cons.mp hx with rfl | hx
    · exact le_trans (foldl_min_le_init t (min a x)) (min_le_right a x)
    · exact ih (min a b) hx

/-- A fold of `min` yields the initial accumulator or a list element. -/
theorem foldl_min_eq_init_or_mem (l : List ℚ) (a : ℚ) :
    l.foldl min a = a ∨ l.foldl min a ∈ l := by
  induction l generalizing a with
  | nil => exact Or.inl rfl
  | cons b t ih =>
    rcases ih (min a b) with h | h
    · rcases min_choice a b with hab | hab
      · exact Or.inl (by rw [List.foldl_cons, h, hab])
      · exact Or.inr (by rw [List.foldl_cons, h, hab]; exact List.mem_cons_self b t)
    · exact Or.inr (List.mem_cons_of_mem b h)

/-- A fold of `max` dominates its initial accumulator. -/
theorem le_foldl_max_init (l : List ℚ) (a : ℚ) : a ≤ l.foldl max a := by
  induction l generalizing a with
  | nil => exact le_refl a
  | cons b t ih => exact le_trans (le_max_left a b) (ih (max a b))

/-- A fold of `max` dominates every list element. -/
theorem le_foldl_max_mem (l : List ℚ) (a x : ℚ) (hx : x ∈ l) : x ≤ l.foldl max a := by
  induction l generalizing a with
  | nil => cases hx
  | cons b t ih =>
    rcases List.mem_cons.mp hx with rfl | hx
    · exact le_trans (le_max_right a x) (le_foldl_max_init t (max a x))
    · exact ih (max a b) hx

/-- A fold of `max` yields the initial accumulator or a list element. -/
theorem foldl_max_eq_init_or_mem (l : List ℚ) (a : ℚ) :
    l.foldl max a = a ∨ l.foldl max a ∈ l := by
  induction l generalizing a with
  | nil => exact Or.inl rfl
  | cons b t ih =>
    rcases ih (max a b) with h | h
    · rcases max_choice a b with hab | hab
      · exact Or.inl (by rw [List.foldl_cons, h, hab])
      · exact Or.inr (by rw [List.foldl_cons, h, hab]; exact List.mem_cons_self b t)
    · exact Or.inr (List.mem_cons_of_mem b h)

/-- A successful `find?` returns the first match: the witness index is
valid, holds the returned element, and every earlier index fails the
predicate. -/
theorem find?_first {α : Type} (p : α → Bool) (l : List α) (a : α)
    (h : l.find? p = some a) :
    ∃ k, ∃ hk : k < l.length, l[k] = a ∧
      ∀ m, ∀ hm : m < l.length, m < k → p (l[m]) = false := by
  induction l with
  | nil => cases h
  | cons b t ih =>
    by_cases hb : p b = true
    · refine ⟨0, Nat.succ_pos _, ?_, ?_⟩
      · have hba : some b = some a := by rw [← h, List.find?_cons_of_pos t hb]
        simpa using hba
      · intro m hm hmk; cases hmk
    · have ht : t.find? p = some a := by
        rw [← h, List.find?_cons_of_neg t hb]
      have hb' : p b = false := Bool.eq_false_iff.mpr hb
      obtain ⟨k, hk, hget, hbefore⟩ := ih ht
      refine ⟨k + 1, Nat.succ_lt_succ hk, by simpa using hget, ?_⟩
      intro m hm hmk
      match m, hm with
      | 0, _ => exact hb'
      | m' + 1, hm => exact hbefore m' (Nat.lt_of_succ_lt_succ hm) (Nat.lt_of_succ_lt_succ hmk)

/-! ### Claim theorems -/

/-- C6: `findActiveSegment` returns the first Lyric-kind segment in the
list whose interval satisfies `startTime ≤ t < endTime`, and `none` when
no such segment exists; a Spacer can never be returned since the returned
segment's kind is Lyric. -/
theorem findActiveSegment_first_lyric (segments : List LyricSegment) (time : ℚ) :
    (∀ s, findActiveSegment segments time = some s →
      s.type = SegmentType.LYRIC ∧ s.startTime ≤ time ∧ time < s.endTime ∧
      ∃ k, ∃ hk : k < segments.length, segments[k] = s ∧
        ∀ m, ∀ hm : m < segments.length, m < k →
          ¬(segments[m].type = SegmentType.LYRIC ∧
            segments[m].startTime ≤ time ∧ time < segments[m].endTime)) ∧
    (findActiveSegment segments time = none ↔
      ∀ s ∈ segments, ¬(s.type = SegmentType.LYRIC ∧
        s.startTime ≤ time ∧ time < s.endTime)) := by
  constructor
  · intro s hs
    have hp := List.find?_some hs
    have hact : s.type = SegmentType.LYRIC ∧ s.startTime ≤ time ∧ time < s.endTime := by
      simpa [activePredicate] using hp
    refine ⟨hact.1, hact.2.1, hact.2.2, ?_⟩
    obtain ⟨k, hk, hget, hbefore⟩ := find?_first _ _ _ hs
    refine ⟨k, hk, hget, fun m hm hmk => ?_⟩
    have := hbefore m hm hmk
    simpa [activePredicate] using this
  · unfold findActiveSegment
    rw [List.find?_eq_none]
    constructor
    · intro h s hsmem
      have := h s hsmem
      simpa [activePredicate] using this
    · intro h s hsmem
      have := h s hsmem
      simpa [activePredicate] using this

/-- C6 witness: at time 6 over a Spacer `[0,10)` (listed first) and a Lyric
`[5,15)`, the returned segment is the Lyric one and satisfies the active
conditions. -/
theorem findActiveSegment_first_lyric_witness :
    demoLyricC6.type = SegmentType.LYRIC ∧ demoLyricC6.startTime ≤ 6 ∧
      (6:ℚ) < demoLyricC6.endTime := by
  have h := (findActiveSegment_first_lyric [demoSpacerC6, demoLyricC6] 6).1
    demoLyricC6 (by decide)
  exact ⟨h.1, h.2.1, h.2.2.1⟩

/-- C7 amended: `updateSegmentTiming` returns a new segment whose start is
`newStart` clamped against 0 and whose end is `newEnd` clamped against the
raw requested `newStart` (not against the clamped result start); all other
fields are preserved.  When `newStart ≥ 0` the result does satisfy
`endTime ≥ startTime ≥ 0`. -/
theorem updateSegmentTiming_clamps (segment : LyricSegment) (newStart newEnd : ℚ) :
    (updateSegmentTiming segment newStart newEnd).startTime = max 0 newStart ∧
    (updateSegmentTiming segment newStart newEnd).endTime = max newStart newEnd ∧
    newStart ≤ (updateSegmentTiming segment newStart newEnd).endTime ∧
    (updateSegmentTiming segment newStart newEnd).id = segment.id ∧
    (updateSegmentTiming segment newStart newEnd).text = segment.text ∧
    (updateSegmentTiming segment newStart newEnd).type = segment.type ∧
    (0 ≤ newStart →
      0 ≤ (updateSegmentTiming segment newStart newEnd).startTime ∧
      (updateSegmentTiming segment newStart newEnd).startTime ≤
        (updateSegmentTiming segment newStart newEnd).endTime) := by
  refine ⟨rfl, rfl, le_max_left _ _, rfl, rfl, rfl, fun h => ⟨?_, ?_⟩⟩
  · exact le_max_left 0 newStart
  · show max 0 newStart ≤ max newStart newEnd
    rw [max_eq_right h]
    exact le_max_left newStart newEnd

/-- C8 amended: splitting a segment at a time `t` inside it (between its
start and end) and merging the two halves reconstructs the id, the time
span and the kind of the original segment.  For a split time outside the
segment the merge takes the union span `[min, max]`, which differs from
the original span, so the containment hypothesis is required. -/
theorem split_merge_roundtrip (s : LyricSegment) (t : ℚ) (freshId : Nat)
    (h1 : s.startTime ≤ t) (h2 : t ≤ s.endTime) :
    (mergeSegments (splitSegmentAtTime s t freshId).1
      (splitSegmentAtTime s t freshId).2).id = s.id ∧
    (mergeSegments (splitSegmentAtTime s t freshId).1
      (splitSegmentAtTime s t freshId).2).startTime = s.startTime ∧
    (mergeSegments (splitSegmentAtTime s t freshId).1
      (splitSegmentAtTime s t freshId).2).endTime = s.endTime ∧
    (mergeSegments (splitSegmentAtTime s t freshId).1
      (splitSegmentAtTime s t freshId).2).type = s.type := by
  refine ⟨rfl, ?_, ?_, rfl⟩
  · exact min_eq_left h1
  · exact max_eq_right h2

/-- C3 amended: removing an existing section deletes exactly the segments
that overlap the removed section's range (strictly, `startTime <
sectionEnd` and `sectionStart < endTime`); a segment that does not overlap
the range — equivalently, one that ends at or before the section start or
starts at or after the section end — remains in the store with all fields
unchanged.  Fully contained segments overlap, so they are deleted, but so
is a segment that only partially overlaps the range. -/
theorem removeLyricSection_frame (st : TimelineModel) (id : Nat) (sec : LyricSection)
    (hfind : st.lyricSections.find? (fun s => decide (s.id = id)) = some sec)
    (seg : LyricSegment) (hseg : seg ∈ st.segments) :
    seg ∈ (removeLyricSection st id).segments ↔
      ¬(seg.startTime < sec.endTime ∧ sec.startTime < seg.endTime) := by
  have hiff : (seg.endTime ≤ sec.startTime ∨ sec.endTime ≤ seg.startTime) ↔
      ¬(seg.startTime < sec.endTime ∧ sec.startTime < seg.endTime) := by
    rw [not_and_or, not_lt, not_lt, or_comm]
  unfold removeLyricSection
  rw [hfind]
  simp only [List.mem_filter, decide_eq_true_eq, hseg, true_and]
  exact hiff

/-- C9: when the resize finds no overlapping segments, or finds a group
whose occupied span has zero length, the division is skipped: every
segment is left unchanged (in particular no segment can receive a
degenerate timing), while the section's bounds are still updated to the
requested values. -/
theorem updateLyricSection_degenerate (st : TimelineModel) (id : Nat) (u : SectionUpdates)
    (cur : LyricSection)
    (hfind : st.lyricSections.find? (fun s => decide (s.id = id)) = some cur)
    (hdeg : segmentsInSectionOf cur st.segments = [] ∨
      ∃ s0 rest, segmentsInSectionOf cur st.segments = s0 :: rest ∧
        occupiedLastEnd s0 rest - occupiedFirstStart s0 rest = 0) :
    (updateLyricSection st id u).segments = st.segments ∧
    applySectionUpdates cur u ∈ (updateLyricSection st id u).lyricSections := by
  have hseg : ∀ a b : ℚ, remapSegments cur a b st.segments = st.segments := by
    intro a b
    unfold remapSegments
    rcases hdeg with h | ⟨s0, rest, h, hdur⟩
    · rw [h]
    · rw [h]
      simp only [hdur, if_pos]
  constructor
  · show (updateLyricSection st id u).segments = st.segments
    unfold updateLyricSection
    rw [hfind]
    exact hseg _ _
  · have hcurmem : cur ∈ st.lyricSections := List.mem_of_find?_eq_some hfind
    have hid : cur.id = id := by simpa using List.find?_some hfind
    unfold updateLyricSection
    rw [hfind]
    show applySectionUpdates cur u ∈ List.insertionSort sectionLE _
    rw [List.mem_insertionSort]
    have hmap := List.mem_map_of_mem
      (fun sec => if sec.id = id then applySectionUpdates sec u else sec) hcurmem
    simpa [hid] using hmap

/-- C1 amended: on a resize of an existing section whose overlapping
segment group has a non-zero occupied span, every segment overlapping the
current section bounds (not only the fully contained ones) is remapped by
`newSegStart = newStart + relativeStart * newDuration` and
`newSegEnd = newStart + relativeEnd * newDuration`, where the relative
positions are taken over the occupied span of the overlapping group.  The
last three conjuncts identify `occupiedFirstStart`/`occupiedLastEnd` as
the minimum start and maximum end of that group. -/
theorem updateLyricSection_proportional (st : TimelineModel) (id : Nat) (u : SectionUpdates)
    (cur : LyricSection) (s0 : LyricSegment) (rest : List LyricSegment)
    (hfind : st.lyricSections.find? (fun s => decide (s.id = id)) = some cur)
    (hsis : segmentsInSectionOf cur st.segments = s0 :: rest)
    (hdur : occupiedLastEnd s0 rest - occupiedFirstStart s0 rest ≠ 0)
    (j : Nat) (hj : j < st.segments.length)
    (hover : overlapsSection cur st.segments[j] = true) :
    (updateLyricSection st id u).segments[j]? =
      some (remapSegment (u.startTime?.getD cur.startTime)
        (u.endTime?.getD cur.endTime - u.startTime?.getD cur.startTime)
        (occupiedFirstStart s0 rest)
        (occupiedLastEnd s0 rest - occupiedFirstStart s0 rest)
        st.segments[j]) ∧
    (∀ s ∈ s0 :: rest, occupiedFirstStart s0 rest ≤ s.startTime ∧
      s.endTime ≤ occupiedLastEnd s0 rest) ∧
    (∃ s ∈ s0 :: rest, s.startTime = occupiedFirstStart s0 rest) ∧
    (∃ s ∈ s0 :: rest, s.endTime = occupiedLastEnd s0 rest) := by
  have hmemsis : st.segments[j] ∈ s0 :: rest := by
    rw [← hsis]
    exact List.mem_filter.mpr ⟨List.getElem_mem hj, hover⟩
  have hidmem : st.segments[j].id ∈ (s0 :: rest).map (fun s => s.id) :=
    List.mem_map_of_mem (fun s => s.id) hmemsis
  refine ⟨?_, ?_, ?_, ?_⟩
  · have hgoal : (updateLyricSection st id u).segments =
        st.segments.map (fun seg =>
          if decide (seg.id ∈ (s0 :: rest).map (fun s => s.id)) = true then
            remapSegment (u.startTime?.getD cur.startTime)
              (u.endTime?.getD cur.endTime - u.startTime?.getD cur.startTime)
              (occupiedFirstStart s0 rest)
              (occupiedLastEnd s0 rest - occupiedFirstStart s0 rest) seg
          else seg) := by
      simp only [updateLyricSection, hfind, remapSegments, hsis]
      rw [if_neg hdur]
    rw [hgoal, List.getElem?_map, List.getElem?_eq_getElem hj]
    show some (if decide (st.segments[j].id ∈ (s0 :: rest).map (fun s => s.id)) = true
      then _ else _) = _
    rw [if_pos (decide_eq_true hidmem)]
  · intro s hs
    constructor
    · rcases List.mem_cons.mp hs with rfl | hs'
      · exact foldl_min_le_init _ _
      · exact foldl_min_le_mem _ _ _ (List.mem_map_of_mem (fun x => x.startTime) hs')
    · rcases List.mem_cons.mp hs with rfl | hs'
      · exact le_foldl_max_init _ _
      · exact le_foldl_max_mem _ _ _ (List.mem_map_of_mem (fun x => x.endTime) hs')
  · rcases foldl_min_eq_init_or_mem (rest.map (fun s => s.startTime)) s0.startTime with h | h
    · exact ⟨s0, List.mem_cons_self _ _, h.symm⟩
    · obtain ⟨s, hs, hval⟩ := List.mem_map.mp h
      exact ⟨s, List.mem_cons_of_mem _ hs, hval⟩
  · rcases foldl_max_eq_init_or_mem (rest.map (fun s => s.endTime)) s0.endTime with h | h
    · exact ⟨s0, List.mem_cons_self _ _, h.symm⟩
    · obtain ⟨s, hs, hval⟩ := List.mem_map.mp h
      exact ⟨s, List.mem_cons_of_mem _ hs, hval⟩

/-- C2 amended: when an `updateSegment` call changes the target's end time
by a non-zero (clamped) delta and the target is contained in a section,
every later-listed segment of the same section whose shifted start stays
nonnegative is shifted in both start and end by that delta, a same-section
segment whose shifted start would be negative is skipped, and a segment
outside the target's section is untouched.  When the target is an orphan
(contained in no section), no other segment is shifted at all — the
original claim's orphan-cascade does not exist in the code. -/
theorem updateSegment_cascade (sections : List LyricSection) (prev : List LyricSegment)
    (id : Nat) (u : SegmentUpdates) (i j : Nat) (cur seg : LyricSegment)
    (hfind : prev.findIdx? (fun s => decide (s.id = id)) = some i)
    (hget : prev[i]? = some cur)
    (hjget : prev[j]? = some seg)
    (hij : i < j) (hid : seg.id ≠ id)
    (hwfseg : seg.startTime ≤ seg.endTime)
    (δ : ℚ) (hδ : δ = clampedEndShift sections prev i cur (u.endTime?.getD cur.endTime))
    (hδ0 : δ ≠ 0) :
    (∀ cs, containingSectionOf sections cur = some cs →
      ((isInSection cs seg = true → 0 ≤ seg.startTime + δ →
        { seg with startTime := seg.startTime + δ, endTime := seg.endTime + δ }
          ∈ updateSegment sections prev id u) ∧
      (isInSection cs seg = true → seg.startTime + δ < 0 →
        seg ∈ updateSegment sections prev id u) ∧
      (isInSection cs seg = false →
        seg ∈ updateSegment sections prev id u))) ∧
    (containingSectionOf sections cur = none →
      seg ∈ updateSegment sections prev id u) := by
  have hred : updateSegment sections prev id u =
      sortSegmentsByTime (prev.enum.map (fun p =>
        updateSegmentStep (containingSectionOf sections cur) id u i
          (u.startTime?.getD cur.startTime) (cur.endTime + δ) δ p.1 p.2)) := by
    rw [hδ]
    simp only [updateSegment, hfind, hget]
    rw [if_neg]
    intro hcontra
    exact hδ0 (hδ ▸ hcontra.1)
  have hjenum : (j, seg) ∈ prev.enum := by
    refine List.getElem?_mem (n := j) ?_
    rw [List.enum, List.getElem?_enumFrom, hjget]
    simp
  have hmem : ∀ x : LyricSegment,
      updateSegmentStep (containingSectionOf sections cur) id u i
        (u.startTime?.getD cur.startTime) (cur.endTime + δ) δ j seg = x →
      x ∈ updateSegment sections prev id u := by
    intro x hx
    rw [hred]
    show x ∈ List.insertionSort segLE _
    rw [List.mem_insertionSort]
    rw [← hx]
    exact List.mem_map_of_mem _ hjenum
  constructor
  · intro cs hcs
    refine ⟨?_, ?_, ?_⟩
    · intro hin h0
      apply hmem
      simp only [updateSegmentStep, hcs, if_neg hid, if_pos (And.intro hij hδ0), hin, if_true]
      rw [if_pos h0]
      show updateSegmentTiming seg (seg.startTime + δ) (seg.endTime + δ) = _
      unfold updateSegmentTiming
      rw [max_eq_right h0, max_eq_right (add_le_add_right hwfseg δ)]
    · intro hin hneg
      apply hmem
      simp only [updateSegmentStep, hcs, if_neg hid, if_pos (And.intro hij hδ0), hin, if_true]
      rw [if_neg (not_le.mpr hneg)]
    · intro hout
      apply hmem
      simp only [updateSegmentStep, hcs, if_neg hid, if_pos (And.intro hij hδ0), hout]
      simp
  · intro hnone
    apply hmem
    simp only [updateSegmentStep, hnone, if_neg hid, if_pos (And.intro hij hδ0)]

/-- C5: spacer insertion.  The insertion point snaps to the start of the
segment under `atTime` when `atTime` is in its left half and to its end
otherwise, and is `atTime` itself when no segment is under it; every
segment starting at or after the insertion point is shifted forward by
`duration`; a Spacer of length `duration` is placed at the insertion
point; every section containing the insertion point (inclusive of its end
boundary) has its end extended by `duration`; and every section starting
after the insertion point is shifted forward by `duration`.  The
well-formedness hypotheses (`duration ≥ 0`, segment spans with
`0 ≤ start ≤ end`) keep the defensive clamps of `updateSegmentTiming`
inactive, matching the store's invariants. -/
theorem insertSpacer_spec (st : TimelineModel) (atTime duration : ℚ) (fresh : Nat)
    (hdur : 0 ≤ duration)
    (hwf : ∀ s ∈ st.segments, 0 ≤ s.startTime ∧ s.startTime ≤ s.endTime)
    (ip : ℚ) (hip : ip = insertionPointOf st.segments atTime) :
    ((∀ segAt, st.segments.find?
        (fun s => decide (s.startTime ≤ atTime ∧ atTime < s.endTime)) = some segAt →
        ((atTime < (segAt.startTime + segAt.endTime) / 2 → ip = segAt.startTime) ∧
         ((segAt.startTime + segAt.endTime) / 2 ≤ atTime → ip = segAt.endTime))) ∧
      (st.segments.find?
        (fun s => decide (s.startTime ≤ atTime ∧ atTime < s.endTime)) = none →
        ip = atTime)) ∧
    (∀ s ∈ st.segments, ip ≤ s.startTime →
      { s with startTime := s.startTime + duration, endTime := s.endTime + duration }
        ∈ (insertSpacer st atTime duration fresh).segments) ∧
    ({ id := fresh, text := "", startTime := ip, endTime := ip + duration,
       type := SegmentType.SPACER } ∈ (insertSpacer st atTime duration fresh).segments) ∧
    (∀ k : Nat, ∀ sec : LyricSection, st.lyricSections[k]? = some sec →
      ((sec.startTime ≤ ip ∧ ip ≤ sec.endTime →
          (insertSpacer st atTime duration fresh).lyricSections[k]? =
            some { sec with endTime := sec.endTime + duration }) ∧
       (ip < sec.startTime →
          (insertSpacer st atTime duration fresh).lyricSections[k]? =
            some { sec with startTime := sec.startTime + duration,
                            endTime := sec.endTime + duration }))) := by
  subst hip
  have hseq : (insertSpacer st atTime duration fresh).segments =
      List.insertionSort segLE
        (st.segments.map (fun seg =>
          if insertionPointOf st.segments atTime ≤ seg.startTime then
            updateSegmentTiming seg (seg.startTime + duration) (seg.endTime + duration)
          else seg) ++
         [createSpacerSegment fresh (insertionPointOf st.segments atTime)
           (insertionPointOf st.segments atTime + duration)]) := rfl
  have hsecs : (insertSpacer st atTime duration fresh).lyricSections =
      st.lyricSections.map (fun sec =>
        if sec.startTime ≤ insertionPointOf st.segments atTime ∧
           insertionPointOf st.segments atTime ≤ sec.endTime then
          { sec with endTime := sec.endTime + duration }
        else if insertionPointOf st.segments atTime < sec.startTime then
          { sec with startTime := sec.startTime + duration,
                     endTime := sec.endTime + duration }
        else sec) := rfl
  refine ⟨⟨?_, ?_⟩, ?_, ?_, ?_⟩
  · intro segAt hfind
    constructor
    · intro hlt
      simp only [insertionPointOf, hfind]
      rw [if_pos hlt]
    · intro hge
      simp only [insertionPointOf, hfind]
      rw [if_neg (not_lt.mpr hge)]
  · intro hnone
    simp only [insertionPointOf, hnone]
  · intro s hs hle
    rw [hseq, List.mem_insertionSort]
    apply List.mem_append_left
    have hstep : (if insertionPointOf st.segments atTime ≤ s.startTime then
        updateSegmentTiming s (s.startTime + duration) (s.endTime + duration) else s) =
        { s with startTime := s.startTime + duration, endTime := s.endTime + duration } := by
      rw [if_pos hle]
      unfold updateSegmentTiming
      rw [max_eq_right (add_nonneg (hwf s hs).1 hdur),
          max_eq_right (add_le_add_right (hwf s hs).2 duration)]
    rw [← hstep]
    exact List.mem_map_of_mem _ hs
  · rw [hseq, List.mem_insertionSort]
    apply List.mem_append_right
    exact List.mem_singleton.mpr rfl
  · intro k sec hsec
    constructor
    · intro hin
      rw [hsecs, List.getElem?_map, hsec, Option.map_some', if_pos hin]
    · intro hlt
      rw [hsecs, List.getElem?_map, hsec, Option.map_some',
          if_neg (fun hin => absurd hlt (not_lt.mpr hin.1)), if_pos hlt]

/-- C4 amended: importing lyrics that parse to a non-empty line list
creates one equal-width Lyric segment per line filling
`[sectionStart, effectiveEnd]` exactly (the k-th new segment spans
`[start + k*w, start + (k+1)*w]` and the widths sum to the whole range),
keeps every pre-existing segment that does not overlap the range, and
removes every pre-existing segment that overlaps it — not only the fully
contained ones.  The freshness hypothesis (`fresh` larger than every
existing id) models the uniqueness of the UUIDs given to new segments. -/
theorem importLyrics_fill (prev : List LyricSegment) (text : String) (videoDuration : ℚ)
    (startTime : ℚ) (endTime? : Option ℚ) (fresh : Nat)
    (lines : List String) (hlns : lines = parseLyricsToLines text) (hne : lines ≠ [])
    (hfresh : ∀ s ∈ prev, s.id < fresh) :
    (∀ seg ∈ prev,
      (seg.endTime ≤ startTime ∨ endTime?.getD videoDuration ≤ seg.startTime) →
      seg ∈ importLyrics prev text videoDuration startTime endTime? fresh) ∧
    (∀ seg ∈ prev, seg.startTime < endTime?.getD videoDuration →
      startTime < seg.endTime →
      seg ∉ importLyrics prev text videoDuration startTime endTime? fresh) ∧
    (∀ k, ∀ hk : k < lines.length,
      { id := fresh + k, text := lines[k],
        startTime := startTime + (k : ℚ) *
          ((endTime?.getD videoDuration - startTime) / (lines.length : ℚ)),
        endTime := startTime + ((k : ℚ) + 1) *
          ((endTime?.getD videoDuration - startTime) / (lines.length : ℚ)),
        type := SegmentType.LYRIC }
        ∈ importLyrics prev text videoDuration startTime endTime? fresh) ∧
    startTime + (lines.length : ℚ) *
      ((endTime?.getD videoDuration - startTime) / (lines.length : ℚ)) =
      endTime?.getD videoDuration := by
  have hres : importLyrics prev text videoDuration startTime endTime? fresh =
      List.insertionSort segLE
        (prev.filter (fun seg =>
          decide (seg.endTime ≤ startTime ∨ endTime?.getD videoDuration ≤ seg.startTime)) ++
         lines.enum.map (fun p =>
          { id := fresh + p.1, text := p.2,
            startTime := startTime + (p.1 : ℚ) *
              ((endTime?.getD videoDuration - startTime) / (lines.length : ℚ)),
            endTime := startTime + ((p.1 : ℚ) + 1) *
              ((endTime?.getD videoDuration - startTime) / (lines.length : ℚ)),
            type := SegmentType.LYRIC })) := by
    simp only [importLyrics, ← hlns]
    rw [if_neg (by simpa using hne)]
    rfl
  have hlen0 : (lines.length : ℚ) ≠ 0 :=
    Nat.cast_ne_zero.mpr (fun h => hne (List.length_eq_zero.mp h))
  refine ⟨?_, ?_, ?_, ?_⟩
  · intro seg hseg hout
    rw [hres, List.mem_insertionSort]
    apply List.mem_append_left
    exact List.mem_filter.mpr ⟨hseg, decide_eq_true hout⟩
  · intro seg hseg hov1 hov2 hmem
    rw [hres, List.mem_insertionSort] at hmem
    rcases List.mem_append.mp hmem with hmem | hmem
    · rcases of_decide_eq_true (List.mem_filter.mp hmem).2 with h | h
      · exact absurd hov2 (not_lt.mpr h)
      · exact absurd hov1 (not_lt.mpr h)
    · obtain ⟨p, hp, heq⟩ := List.mem_map.mp hmem
      have hidge : fresh ≤ seg.id := by
        rw [← heq]
        exact Nat.le_add_right fresh p.1
      exact absurd (hfresh seg hseg) (not_lt.mpr hidge)
  · intro k hk
    rw [hres, List.mem_insertionSort]
    apply List.mem_append_right
    have hkenum : (k, lines[k]) ∈ lines.enum := by
      refine List.getElem?_mem (n := k) ?_
      rw [List.enum, List.getElem?_enumFrom, List.getElem?_eq_getElem hk]
      simp
    exact List.mem_map_of_mem _ hkenum
  · rw [mul_div_assoc', mul_comm, mul_div_assoc, div_self hlen0, mul_one]
    ring

/-- C10 amended: each redistributed segment of `appendLyrics` reuses the
id and the kind of the equally indexed existing segment when there is one
(and then its text is that same segment's own text, since the combined
text list starts with the existing segments' texts in the same order), and
otherwise carries a fresh id with Lyric kind; the k-th segment spans the
k-th equal slice of `[sectionStart, sectionEnd]`.  In particular a Spacer
among the named segments keeps its own (empty) text, so no Spacer-kind
segment with non-empty text can arise this way. -/
theorem appendLyrics_positional (prev : List LyricSegment) (text : String)
    (sectionStart sectionEnd : ℚ) (ids : List Nat) (fresh : Nat)
    (newLines : List String) (hlns : newLines = parseLyricsToLines text)
    (hne : newLines ≠ [])
    (k : Nat) (hk : k < (allTextsOf prev ids newLines).length) :
    (∀ ex, (existingSegmentsOf prev ids)[k]? = some ex →
      ({ id := ex.id,
         text := (allTextsOf prev ids newLines)[k],
         startTime := sectionStart + (k : ℚ) *
           ((sectionEnd - sectionStart) / ((allTextsOf prev ids newLines).length : ℚ)),
         endTime := sectionStart + ((k : ℚ) + 1) *
           ((sectionEnd - sectionStart) / ((allTextsOf prev ids newLines).length : ℚ)),
         type := ex.type }
         ∈ appendLyrics prev text sectionStart sectionEnd ids fresh) ∧
      (allTextsOf prev ids newLines)[k]? = some ex.text) ∧
    ((existingSegmentsOf prev ids)[k]? = none →
      { id := fresh + (k - (existingSegmentsOf prev ids).length),
        text := (allTextsOf prev ids newLines)[k],
        startTime := sectionStart + (k : ℚ) *
          ((sectionEnd - sectionStart) / ((allTextsOf prev ids newLines).length : ℚ)),
        endTime := sectionStart + ((k : ℚ) + 1) *
          ((sectionEnd - sectionStart) / ((allTextsOf prev ids newLines).length : ℚ)),
        type := SegmentType.LYRIC }
        ∈ appendLyrics prev text sectionStart sectionEnd ids fresh) := by
  have hres : appendLyrics prev text sectionStart sectionEnd ids fresh =
      List.insertionSort segLE
        (prev.filter (fun seg => decide (seg.id ∉ ids)) ++
         (allTextsOf prev ids newLines).enum.map (fun p =>
          { id := (((existingSegmentsOf prev ids)[p.1]?.map (fun e => e.id)).getD
                (fresh + (p.1 - (existingSegmentsOf prev ids).length))),
            text := p.2,
            startTime := sectionStart + (p.1 : ℚ) *
              ((sectionEnd - sectionStart) / (((allTextsOf prev ids newLines)).length : ℚ)),
            endTime := sectionStart + ((p.1 : ℚ) + 1) *
              ((sectionEnd - sectionStart) / (((allTextsOf prev ids newLines)).length : ℚ)),
            type := ((existingSegmentsOf prev ids)[p.1]?.map (fun e => e.type)).getD
              SegmentType.LYRIC })) := by
    simp only [appendLyrics, allTextsOf, ← hlns]
    rw [if_neg (by simpa using hne)]
    rfl
  have hkenum : (k, (allTextsOf prev ids newLines)[k]) ∈
      (allTextsOf prev ids newLines).enum := by
    refine List.getElem?_mem (n := k) ?_
    rw [List.enum, List.getElem?_enumFrom, List.getElem?_eq_getElem hk]
    simp
  constructor
  · intro ex hex
    constructor
    · rw [hres, List.mem_insertionSort]
      apply List.mem_append_right
      have := List.mem_map_of_mem (fun p : Nat × String =>
        ({ id := (((existingSegmentsOf prev ids)[p.1]?.map (fun e => e.id)).getD
              (fresh + (p.1 - (existingSegmentsOf prev ids).length))),
           text := p.2,
           startTime := sectionStart + (p.1 : ℚ) *
             ((sectionEnd - sectionStart) / (((allTextsOf prev ids newLines)).length : ℚ)),
           endTime := sectionStart + ((p.1 : ℚ) + 1) *
             ((sectionEnd - sectionStart) / (((allTextsOf prev ids newLines)).length : ℚ)),
           type := ((existingSegmentsOf prev ids)[p.1]?.map (fun e => e.type)).getD
             SegmentType.LYRIC } : LyricSegment)) hkenum
      simpa [hex] using this
    · have hklt : k < (existingSegmentsOf prev ids).length := by
        rcases List.getElem?_eq_some_iff.mp hex with ⟨h, -⟩
        exact h
      have hmaplen : k < ((existingSegmentsOf prev ids).map (fun seg => seg.text)).length := by
        simpa using hklt
      show ((existingSegmentsOf prev ids).map (fun seg => seg.text) ++ newLines)[k]? =
        some ex.text
      rw [List.getElem?_append_left hmaplen, List.getElem?_map, hex, Option.map_some']
  · intro hex
    rw [hres, List.mem_insertionSort]
    apply List.mem_append_right
    have := List.mem_map_of_mem (fun p : Nat × String =>
      ({ id := (((existingSegmentsOf prev ids)[p.1]?.map (fun e => e.id)).getD
            (fresh + (p.1 - (existingSegmentsOf prev ids).length))),
         text := p.2,
         startTime := sectionStart + (p.1 : ℚ) *
           ((sectionEnd - sectionStart) / (((allTextsOf prev ids newLines)).length : ℚ)),
         endTime := sectionStart + ((p.1 : ℚ) + 1) *
           ((sectionEnd - sectionStart) / (((allTextsOf prev ids newLines)).length : ℚ)),
         type := ((existingSegmentsOf prev ids)[p.1]?.map (fun e => e.type)).getD
           SegmentType.LYRIC } : LyricSegment)) hkenum
    simpa [hex] using this

section

attribute [local semireducible] Rat.sub Rat.add Rat.mul Rat.inv

/-- C7 witness: clamping at `newStart = 3, newEnd = 1` on a concrete
segment gives a result with the amended clamp values and, since the
requested start is nonnegative, a well-formed span. -/
theorem updateSegmentTiming_clamps_witness :
    (0:ℚ) ≤ 3 ∧
    (updateSegmentTiming demoSegC7 3 1).startTime = max 0 3 ∧
    (updateSegmentTiming demoSegC7 3 1).endTime = max 3 1 ∧
    0 ≤ (updateSegmentTiming demoSegC7 3 1).startTime ∧
    (updateSegmentTiming demoSegC7 3 1).startTime ≤
      (updateSegmentTiming demoSegC7 3 1).endTime := by
  have h := updateSegmentTiming_clamps demoSegC7 3 1
  have h0 : (0:ℚ) ≤ 3 := by decide
  exact ⟨h0, h.1, h.2.1, (h.2.2.2.2.2.2 h0).1, (h.2.2.2.2.2.2 h0).2⟩

/-- C7 counterexample: with `newStart = -5, newEnd = -3` the result has
`startTime = 0` but `endTime = -3 < 0`, refuting the claim that the result
always satisfies `endTime ≥ startTime ≥ 0` (the code clamps the end
against the raw requested start, not the clamped one). -/
theorem updateSegmentTiming_counterexample :
    (updateSegmentTiming demoSegC7 (-5) (-3)).endTime <
      (updateSegmentTiming demoSegC7 (-5) (-3)).startTime := by decide

/-- C8 witness: splitting the concrete segment `[10,20)` at 15 and merging
the halves restores id, span and kind. -/
theorem split_merge_roundtrip_witness :
    demoSegC8.startTime ≤ 15 ∧ (15:ℚ) ≤ demoSegC8.endTime ∧
    (mergeSegments (splitSegmentAtTime demoSegC8 15 99).1
      (splitSegmentAtTime demoSegC8 15 99).2).id = demoSegC8.id ∧
    (mergeSegments (splitSegmentAtTime demoSegC8 15 99).1
      (splitSegmentAtTime demoSegC8 15 99).2).startTime = demoSegC8.startTime ∧
    (mergeSegments (splitSegmentAtTime demoSegC8 15 99).1
      (splitSegmentAtTime demoSegC8 15 99).2).endTime = demoSegC8.endTime := by
  have h := split_merge_roundtrip demoSegC8 15 99 (by decide) (by decide)
  exact ⟨by decide, by decide, h.1, h.2.1, h.2.2.1⟩

/-- C8 counterexample: splitting `[10,20)` at 5 (outside the segment) and
merging yields start time 5, not the original 10, refuting the claim for
arbitrary split times. -/
theorem split_merge_counterexample :
    (mergeSegments (splitSegmentAtTime demoSegC8 5 99).1
      (splitSegmentAtTime demoSegC8 5 99).2).startTime ≠ demoSegC8.startTime := by decide

/-- C2 counterexample: the target `[0,10)` and the later segment `[20,30)`
are both orphans (there are no sections), and the update extends the
target's end by 5; the claim requires the later orphan to be shifted to
`[25,35)`, but the code leaves it unchanged (it shifts only when the
target has a containing section). -/
theorem updateSegment_orphan_counterexample :
    containingSectionOf [] demoTA2 = none ∧
    clampedEndShift [] [demoTA2, demoTB2] 0 demoTA2 (15:ℚ) = 5 ∧
    updateSegment [] [demoTA2, demoTB2] 1 { endTime? := some 15 } =
      [{ demoTA2 with endTime := 15 }, demoTB2] ∧
    { demoTB2 with startTime := 25, endTime := 35 } ∉
      updateSegment [] [demoTA2, demoTB2] 1 { endTime? := some 15 } := by decide

/-- C2 witness: in the section `[0,40)` the target `[0,10)` is extended to
end at 12 (delta 2, unclamped since there is room), and the later
same-section segment `[10,20)` is shifted to `[12,22)`. -/
theorem updateSegment_cascade_witness :
    ({ demoUC2 with startTime := demoUC2.startTime + 2, endTime := demoUC2.endTime + 2 } =
      { demoUC2 with startTime := 12, endTime := 22 }) ∧
    { demoUC2 with startTime := demoUC2.startTime + 2, endTime := demoUC2.endTime + 2 } ∈
      updateSegment [demoSecC2] [demoTC2, demoUC2] 1 { endTime? := some 12 } := by
  have h := (updateSegment_cascade [demoSecC2] [demoTC2, demoUC2] 1 { endTime? := some 12 }
      0 1 demoTC2 demoUC2 (by decide) (by decide) (by decide) (by decide) (by decide)
      (by decide) 2 (by decide) (by decide)).1 demoSecC2 (by decide)
  exact ⟨by decide, h.1 (by decide) (by decide)⟩

/-- C3 counterexample: removing section `[0,30)` deletes the segment
`[25,35)` even though that segment is not fully contained in the removed
range, refuting the claim that only fully contained segments are deleted
and partially overlapping ones remain. -/
theorem removeLyricSection_counterexample :
    demoSegC3 ∈ demoStC3.segments ∧
    ¬(demoSecC3.startTime ≤ demoSegC3.startTime ∧
      demoSegC3.endTime ≤ demoSecC3.endTime) ∧
    demoSegC3 ∉ (removeLyricSection demoStC3 7).segments := by decide

/-- C3 witness: removing section `[0,30)` keeps the non-overlapping
segment `[40,50)` and deletes the overlapping segment `[25,35)`. -/
theorem removeLyricSection_frame_witness :
    demoKeepC3 ∈ (removeLyricSection demoStC3 7).segments ∧
    demoSegC3 ∉ (removeLyricSection demoStC3 7).segments := by
  have h1 := removeLyricSection_frame demoStC3 7 demoSecC3 (by decide) demoKeepC3 (by decide)
  have h2 := removeLyricSection_frame demoStC3 7 demoSecC3 (by decide) demoSegC3 (by decide)
  exact ⟨h1.mpr (by decide), fun hmem => (h2.mp hmem) (by decide)⟩

/-- C1 counterexample: section `[0,30)` holds the contained segment
`[0,10)` and the partially overlapping segment `[25,35)`.  Resizing the
end to 60 should, by the claim (relative positions over the occupied span
of the contained segments, i.e. `[0,10)`), give the contained segment the
end time `0 + 1 * 60 = 60`; the code instead computes the span over all
overlapping segments (`[0,35)`) and yields `(10/35) * 60 = 120/7`. -/
theorem updateLyricSection_containment_counterexample :
    (demoSecC1.startTime ≤ demoA1.startTime ∧ demoA1.endTime ≤ demoSecC1.endTime) ∧
    ((updateLyricSection demoStC1 1 { endTime? := some 60 }).segments[0]?.map
      (fun s => s.endTime)) = some (120/7) ∧
    ((120:ℚ)/7 ≠ 60) := by decide

/-- C1 witness: section `[0,30)` with three equal 10-second segments
resized to `[0,15)` yields segments `[0,5) [5,10) [10,15)`. -/
theorem updateLyricSection_proportional_witness :
    (updateLyricSection demoStC1w 2 { endTime? := some 15 }).segments[0]? =
      some { demoW1 with startTime := 0, endTime := 5 } ∧
    (updateLyricSection demoStC1w 2 { endTime? := some 15 }).segments[1]? =
      some { demoW2 with startTime := 5, endTime := 10 } ∧
    (updateLyricSection demoStC1w 2 { endTime? := some 15 }).segments[2]? =
      some { demoW3 with startTime := 10, endTime := 15 } := by
  have h0 := (updateLyricSection_proportional demoStC1w 2 { endTime? := some 15 }
    demoSecC1w demoW1 [demoW2, demoW3] (by decide) (by decide) (by decide)
    0 (by decide) (by decide)).1
  have h1 := (updateLyricSection_proportional demoStC1w 2 { endTime? := some 15 }
    demoSecC1w demoW1 [demoW2, demoW3] (by decide) (by decide) (by decide)
    1 (by decide) (by decide)).1
  have h2 := (updateLyricSection_proportional demoStC1w 2 { endTime? := some 15 }
    demoSecC1w demoW1 [demoW2, demoW3] (by decide) (by decide) (by decide)
    2 (by decide) (by decide)).1
  refine ⟨?_, ?_, ?_⟩
  · rw [h0]; decide
  · rw [h1]; decide
  · rw [h2]; decide

/-- C9 witness: resizing section `[0,30)` (holding only the zero-duration
segment `[10,10)`) to end at 60 leaves the segments unchanged and updates
the section's bounds. -/
theorem updateLyricSection_degenerate_witness :
    (updateLyricSection demoStC9 1 { endTime? := some 60 }).segments = demoStC9.segments ∧
    applySectionUpdates demoSecC9 { endTime? := some 60 } ∈
      (updateLyricSection demoStC9 1 { endTime? := some 60 }).lyricSections := by
  exact updateLyricSection_degenerate demoStC9 1 { endTime? := some 60 } demoSecC9
    (by decide) (Or.inr ⟨demoZeroSegC9, [], by decide, by decide⟩)

/-- C4 counterexample: importing one line into `[0,30]` deletes the
pre-existing segment `[25,35)` although that segment is not entirely
within the import range, refuting the claim that exactly the segments
entirely within the range are removed. -/
theorem importLyrics_containment_counterexample :
    ¬((0:ℚ) ≤ demoOldC4.startTime ∧ demoOldC4.endTime ≤ 30) ∧
    demoOldC4 ∉ importLyrics [demoOldC4] "x" 30 0 none 100 := by decide

/-- C4 witness: importing two lines into `[0,30]` keeps the outside
segment `[40,50)` and produces the equal slices `[0,15)` and `[15,30)`. -/
theorem importLyrics_fill_witness :
    demoOutC4 ∈ importLyrics [demoOutC4] "a\nb" 30 0 none 100 ∧
    ({ id := 100, text := "a", startTime := (0:ℚ), endTime := 15,
       type := SegmentType.LYRIC } ∈ importLyrics [demoOutC4] "a\nb" 30 0 none 100) ∧
    ({ id := 101, text := "b", startTime := (15:ℚ), endTime := 30,
       type := SegmentType.LYRIC } ∈ importLyrics [demoOutC4] "a\nb" 30 0 none 100) := by
  have h := importLyrics_fill [demoOutC4] "a\nb" 30 0 none 100 ["a", "b"]
    (by decide) (by decide) (by decide)
  refine ⟨h.1 demoOutC4 (by decide) (by decide), ?_, ?_⟩
  · exact h.2.2.1 0 (by decide)
  · exact h.2.2.1 1 (by decide)

/-- C5 witness: the spec's example — a segment `[10,20)`, `atTime = 12`
left of the midpoint 15, `duration = 2`: the insertion point snaps to 10,
the segment shifts to `[12,22)`, the spacer `[10,12)` is added, and the
section `[0,30)` containing the insertion point extends to `[0,32)`. -/
theorem insertSpacer_spec_witness :
    ((10:ℚ) = insertionPointOf demoStC5.segments 12) ∧
    ({ demoB5 with startTime := demoB5.startTime + 2, endTime := demoB5.endTime + 2 } ∈
      (insertSpacer demoStC5 12 2 50).segments) ∧
    ({ id := 50, text := "", startTime := (10:ℚ), endTime := (10:ℚ) + 2,
       type := SegmentType.SPACER } ∈ (insertSpacer demoStC5 12 2 50).segments) ∧
    ((insertSpacer demoStC5 12 2 50).lyricSections[0]? =
      some { demoSecC5 with endTime := demoSecC5.endTime + 2 }) := by
  have h := insertSpacer_spec demoStC5 12 2 50 (by decide) (by decide) 10 (by decide)
  exact ⟨by decide, h.2.1 demoB5 (by decide) (by decide), h.2.2.1,
    (h.2.2.2 0 demoSecC5 (by decide)).1 (by decide)⟩

/-- C10 counterexample: appending one line to a section whose named
segments are the Lyric "hello" and a Spacer (with one text before the
Spacer's position), the resulting store contains no Spacer-kind segment
with non-empty text — the Spacer is re-paired with its own empty text —
refuting the claim's consequence. -/
theorem appendLyrics_spacer_counterexample :
    demoSpacerC10.type = SegmentType.SPACER ∧
    (2:Nat) ∈ [1, 2] ∧
    parseLyricsToLines "world" = ["world"] ∧
    (∀ s ∈ appendLyrics [demoLyricC10, demoSpacerC10] "world" 0 30 [1, 2] 100,
      s.type = SegmentType.SPACER → s.text = "") := by decide

/-- C10 witness: position 1 reuses the Spacer's id and kind (with its own
empty text) and position 2 gets a fresh id with Lyric kind and the new
line, each on its equal slice of `[0,30]`. -/
theorem appendLyrics_positional_witness :
    ({ id := 2, text := "", startTime := (10:ℚ), endTime := 20,
       type := SegmentType.SPACER } ∈
      appendLyrics [demoLyricC10, demoSpacerC10] "world" 0 30 [1, 2] 100) ∧
    ({ id := 100, text := "world", startTime := (20:ℚ), endTime := 30,
       type := SegmentType.LYRIC } ∈
      appendLyrics [demoLyricC10, demoSpacerC10] "world" 0 30 [1, 2] 100) := by
  have h1 := (appendLyrics_positional [demoLyricC10, demoSpacerC10] "world" 0 30 [1, 2] 100
      ["world"] (by decide) (by decide) 1 (by decide)).1 demoSpacerC10 (by decide)
  have h2 := (appendLyrics_positional [demoLyricC10, demoSpacerC10] "world" 0 30 [1, 2] 100
      ["world"] (by decide) (by decide) 2 (by decide)).2 (by decide)
  exact ⟨h1.1, h2⟩

end

end LyricDrop
